import Mathlib

/-!
Verification of the Finding Gnosis game logic (src/game.js).

The per-frame simulation step of the game is shallowly embedded below.
JavaScript numbers are modelled as rationals (`ℚ`); every constant that
occurs in the source (including `1.2 = 6/5` and `0.5 = 1/2`) is an exact
rational, so all comparisons and updates of the source translate directly.
Optional hazard fields (`dy`, `rangeTop`, `rangeBottom`) are modelled with
`Option ℚ`; a JavaScript comparison against an absent (`undefined`) field
evaluates to `false`, which `jsLe`/`jsGe` reproduce, and the truthiness
test `if (hz.dy)` is false for an absent `dy` and for `dy = 0`.
-/

namespace FindingGnosis

/-- An axis-aligned rectangle, the common shape of player, ground, goal and
hazards (fields `x`, `y`, `width`, `height` of the JS objects). -/
structure Rect where
  x : ℚ
  y : ℚ
  width : ℚ
  height : ℚ

/-- The player object of src/game.js: rectangle plus velocity and flags.
The cosmetic `color` field is omitted (it never affects the simulation). -/
structure Player where
  x : ℚ
  y : ℚ
  width : ℚ
  height : ℚ
  vx : ℚ
  vy : ℚ
  onGround : Bool
  complete : Bool

/-- A hazard: rectangle plus the optional oscillation descriptor
(`dy`, `rangeTop`, `rangeBottom`); static hazards omit the descriptor. -/
structure Hazard where
  x : ℚ
  y : ℚ
  width : ℚ
  height : ℚ
  dy : Option ℚ
  rangeTop : Option ℚ
  rangeBottom : Option ℚ

/-- The input state: pressed flags of ArrowLeft, ArrowRight, ArrowUp. -/
structure Keys where
  left : Bool
  right : Bool
  up : Bool

/-- The mutable simulation state touched by `update`: the `gameRunning`
flag, the player and the hazards array. -/
structure GameState where
  gameRunning : Bool
  player : Player
  hazards : List Hazard

/-- `const GAME_WIDTH = 800`. -/
def GAME_WIDTH : ℚ := 800

/-- `const GRAVITY = 0.5`. -/
def GRAVITY : ℚ := 1/2

/-- `const MOVE_SPEED = 4`. -/
def MOVE_SPEED : ℚ := 4

/-- `const JUMP_SPEED = 12`. -/
def JUMP_SPEED : ℚ := 12

/-- `const ground = { x: 0, y: 560, width: GAME_WIDTH, height: 40 }`. -/
def ground : Rect := ⟨0, 560, 800, 40⟩

/-- `const goal = { x: 740, y: 480, width: 40, height: 80 }`. -/
def goal : Rect := ⟨740, 480, 40, 80⟩

/-- The initial `player` object: `{ x: 50, y: 500, width: 40, height: 60,
vx: 0, vy: 0, onGround: false, complete: false }`. -/
def initialPlayer : Player := ⟨50, 500, 40, 60, 0, 0, false, false⟩

/-- The initial `hazards` array: a static hazard at (400,520,50,50) and a
moving hazard at (550,510,50,50) with `dy: 1.2, rangeTop: 480,
rangeBottom: 540`. -/
def initialHazards : List Hazard :=
  [⟨400, 520, 50, 50, none, none, none⟩,
   ⟨550, 510, 50, 50, some (6/5), some 480, some 540⟩]

/-- View of the player as the rectangle read by `rectIntersect`. -/
def Player.toRect (p : Player) : Rect := ⟨p.x, p.y, p.width, p.height⟩

/-- View of a hazard as the rectangle read by `rectIntersect`. -/
def Hazard.toRect (hz : Hazard) : Rect := ⟨hz.x, hz.y, hz.width, hz.height⟩

/-- `function rectIntersect(a, b)`: axis-aligned bounding-box test,
`a.x < b.x + b.width && a.x + a.width > b.x && a.y < b.y + b.height &&
a.y + a.height > b.y`. -/
def rectIntersect (a b : Rect) : Bool :=
  decide (a.x < b.x + b.width) && decide (a.x + a.width > b.x) &&
  decide (a.y < b.y + b.height) && decide (a.y + a.height > b.y)

/-- JavaScript `a <= b` where `b` may be `undefined`: a comparison with
`undefined` is `false`. -/
def jsLe (a : ℚ) (b : Option ℚ) : Bool :=
  match b with
  | some q => decide (a ≤ q)
  | none => false

/-- JavaScript `a >= b` where `b` may be `undefined`. -/
def jsGe (a : ℚ) (b : Option ℚ) : Bool :=
  match b with
  | some q => decide (q ≤ a)
  | none => false

/-- The moving-hazard part of the `hazards.forEach` body in `update`:
`if (hz.dy) { hz.y += hz.dy; if (hz.y <= hz.rangeTop || hz.y + hz.height
>= hz.rangeBottom) hz.dy *= -1; }`.  The guard `if (hz.dy)` is JavaScript
truthiness: absent or zero `dy` leaves the hazard unchanged. -/
def moveHazard (hz : Hazard) : Hazard :=
  match hz.dy with
  | none => hz
  | some d =>
    if d = 0 then hz
    else
      let y := hz.y + d
      if jsLe y hz.rangeTop || jsGe (y + hz.height) hz.rangeBottom then
        { hz with y := y, dy := some (-d) }
      else
        { hz with y := y }

/-- `function resetPlayer()`: back to the spawn position with zero
velocity; `width`, `height` and `complete` are untouched by the source. -/
def resetPlayer (p : Player) : Player :=
  { p with x := 50, y := 500, vx := 0, vy := 0, onGround := false }

/-- The physics phase of `update` (horizontal movement, jumping, gravity,
position update, horizontal clamping, ground collision), lines 126-157 of
src/game.js, in source order. -/
def physicsPlayer (keys : Keys) (p : Player) : Player :=
  let vx : ℚ := if keys.left then -MOVE_SPEED else if keys.right then MOVE_SPEED else 0
  let vy0 : ℚ := if keys.up && p.onGround then -JUMP_SPEED else p.vy
  let og0 : Bool := if keys.up && p.onGround then false else p.onGround
  let vy : ℚ := vy0 + GRAVITY
  let x1 : ℚ := p.x + vx
  let y1 : ℚ := p.y + vy
  let x2 : ℚ := if x1 < 0 then 0 else x1
  let x3 : ℚ := if x2 + p.width > GAME_WIDTH then GAME_WIDTH - p.width else x2
  if y1 + p.height > ground.y then
    { p with vx := vx, vy := 0, x := x3, y := ground.y - p.height, onGround := true }
  else
    { p with vx := vx, vy := vy, x := x3, y := y1, onGround := og0 }

/-- The `hazards.forEach` loop of `update`: each hazard is moved by
`moveHazard`, then checked against the current player, resetting the
player on intersection; hazards are processed in array order and the
player carried through sequentially. -/
def stepHazards (p : Player) : List Hazard → Player × List Hazard
  | [] => (p, [])
  | hz :: rest =>
    let hz2 := moveHazard hz
    let p2 := if rectIntersect p.toRect hz2.toRect then resetPlayer p else p
    let r := stepHazards p2 rest
    (r.1, hz2 :: r.2)

/-- The goal check at the end of `update`:
`if (rectIntersect(player, goal)) completeLevel();` where `completeLevel`
sets `player.complete = true` (the delayed form reveal is cosmetic). -/
def checkGoal (p : Player) : Player :=
  if rectIntersect p.toRect goal then { p with complete := true } else p

/-- `function update()` of src/game.js: early return unless running and
not complete, then physics, then the hazard loop, then the goal check. -/
def update (keys : Keys) (s : GameState) : GameState :=
  if !s.gameRunning || s.player.complete then s
  else
    let p := physicsPlayer keys s.player
    let r := stepHazards p s.hazards
    { s with player := checkGoal r.1, hazards := r.2 }

/-- Iterated simulation: one `update` per element of the input list, in
order (each frame may have its own key state). -/
def runSteps (inputs : List Keys) (s : GameState) : GameState :=
  inputs.foldl (fun st k => update k st) s

/-- Key state with no key pressed. -/
def noKeys : Keys := ⟨false, false, false⟩

/-- Key state with only ArrowRight pressed. -/
def rightKeys : Keys := ⟨false, true, false⟩

/-- The initial game state right after `startGame()` sets
`gameRunning = true`. -/
def startedState : GameState := ⟨true, initialPlayer, initialHazards⟩

/-- Inward-pointing oscillation invariant for a hazard: whenever the full
descriptor is present, either the hazard is moving down (`0 < d`) with
`rangeTop - d ≤ y` and `y + height ≤ rangeBottom`, or it is moving up
(`d < 0`) with `rangeTop ≤ y` and `y + height ≤ rangeBottom - d`.  This is
the strongest range statement `moveHazard` actually preserves: reflection
may overshoot a bound by one step `|d|` before reversing. -/
def hazInv (hz : Hazard) : Prop :=
  ∀ d t b : ℚ, hz.dy = some d → hz.rangeTop = some t → hz.rangeBottom = some b →
    ((0 < d ∧ t - d ≤ hz.y ∧ hz.y + hz.height ≤ b) ∨
     (d < 0 ∧ t ≤ hz.y ∧ hz.y + hz.height ≤ b - d))

/-! ### Basic lemmas about the embedded operations -/

theorem update_halt (k : Keys) (s : GameState)
    (h : s.gameRunning = false ∨ s.player.complete = true) :
    update k s = s := by
  rcases h with h | h <;> simp [update, h]

theorem update_run (k : Keys) (s : GameState)
    (hrun : s.gameRunning = true) (hc : s.player.complete = false) :
    update k s =
      { s with
        player := checkGoal (stepHazards (physicsPlayer k s.player) s.hazards).1,
        hazards := (stepHazards (physicsPlayer k s.player) s.hazards).2 } := by
  simp [update, hrun, hc]

theorem moveHazard_fields (hz : Hazard) :
    (moveHazard hz).x = hz.x ∧ (moveHazard hz).width = hz.width ∧
    (moveHazard hz).height = hz.height ∧ (moveHazard hz).rangeTop = hz.rangeTop ∧
    (moveHazard hz).rangeBottom = hz.rangeBottom := by
  rcases hz with ⟨x, y, w, h, dy, rt, rb⟩
  cases dy <;> simp [moveHazard] <;> split_ifs <;> simp

theorem moveHazard_some (hz : Hazard) (d : ℚ) (hd : hz.dy = some d) (h0 : d ≠ 0) :
    moveHazard hz =
      if jsLe (hz.y + d) hz.rangeTop || jsGe (hz.y + d + hz.height) hz.rangeBottom then
        { hz with y := hz.y + d, dy := some (-d) }
      else
        { hz with y := hz.y + d } := by
  unfold moveHazard
  rw [hd]
  simp [h0]

theorem resetPlayer_resetPlayer (p : Player) :
    resetPlayer (resetPlayer p) = resetPlayer p := rfl

theorem resetPlayer_width (p : Player) : (resetPlayer p).width = p.width := rfl

theorem resetPlayer_height (p : Player) : (resetPlayer p).height = p.height := rfl

theorem resetPlayer_complete (p : Player) : (resetPlayer p).complete = p.complete := rfl

theorem stepHazards_snd (l : List Hazard) (p : Player) :
    (stepHazards p l).2 = l.map moveHazard := by
  induction l generalizing p with
  | nil => rfl
  | cons hz rest ih => simp [stepHazards, ih]

theorem stepHazards_fst_cases (l : List Hazard) (p : Player) :
    (stepHazards p l).1 = p ∨ (stepHazards p l).1 = resetPlayer p := by
  induction l generalizing p with
  | nil => left; rfl
  | cons hz rest ih =>
    simp only [stepHazards]
    split_ifs with hhit
    · rcases ih (resetPlayer p) with h | h
      · right; exact h
      · right; rw [h, resetPlayer_resetPlayer]
    · exact ih p

theorem stepHazards_fst_hit (l : List Hazard) (p : Player)
    (h : (l.map moveHazard).any (fun hz => rectIntersect p.toRect hz.toRect) = true) :
    (stepHazards p l).1 = resetPlayer p := by
  induction l generalizing p with
  | nil => simp at h
  | cons hz rest ih =>
    simp only [List.map_cons, List.any_cons, Bool.or_eq_true] at h
    simp only [stepHazards]
    split_ifs with hhit
    · rcases stepHazards_fst_cases rest (resetPlayer p) with h2 | h2
      · exact h2
      · rw [h2, resetPlayer_resetPlayer]
    · rcases h with h | h
      · exact absurd h hhit
      · exact ih p h

theorem checkGoal_fields (p : Player) :
    (checkGoal p).x = p.x ∧ (checkGoal p).y = p.y ∧ (checkGoal p).vx = p.vx ∧
    (checkGoal p).vy = p.vy ∧ (checkGoal p).onGround = p.onGround ∧
    (checkGoal p).width = p.width ∧ (checkGoal p).height = p.height := by
  unfold checkGoal
  split_ifs <;> simp

theorem checkGoal_complete_mono (p : Player) (h : p.complete = true) :
    (checkGoal p).complete = true := by
  unfold checkGoal
  split_ifs <;> simp [h]

theorem checkGoal_no_goal (p : Player)
    (h : rectIntersect p.toRect goal = false) :
    checkGoal p = p := by
  simp [checkGoal, h]

theorem physicsPlayer_fields (k : Keys) (p : Player) :
    (physicsPlayer k p).width = p.width ∧ (physicsPlayer k p).height = p.height ∧
    (physicsPlayer k p).complete = p.complete := by
  unfold physicsPlayer
  dsimp only
  refine ⟨?_, ?_, ?_⟩ <;>
    simp [apply_ite Player.width, apply_ite Player.height, apply_ite Player.complete]

theorem physicsPlayer_x_bounds (k : Keys) (p : Player)
    (hw0 : 0 ≤ p.width) (hw : p.width ≤ 750) :
    0 ≤ (physicsPlayer k p).x ∧ (physicsPlayer k p).x + p.width ≤ 800 := by
  unfold physicsPlayer
  dsimp only
  split <;>
  · simp only [GAME_WIDTH, MOVE_SPEED]
    split_ifs <;> dsimp only <;> constructor <;> linarith

theorem moveHazard_none (hz : Hazard) (h : hz.dy = none) : moveHazard hz = hz := by
  unfold moveHazard
  rw [h]

theorem moveHazard_zero (hz : Hazard) (h : hz.dy = some 0) : moveHazard hz = hz := by
  unfold moveHazard
  rw [h]
  simp

/-! ### Claim theorems -/

/-- Claim C4 (confirmed): `rectIntersect` is symmetric, returns `true`
exactly when the rectangles overlap strictly on both axes (open-interval
overlap), and reports rectangles that merely touch on an edge (such as one
spanning x = 0..10 and one spanning x = 10..20) as not intersecting. -/
theorem claim_C4 :
    (∀ a b : Rect, rectIntersect a b = rectIntersect b a) ∧
    (∀ a b : Rect, rectIntersect a b = true ↔
      (a.x < b.x + b.width ∧ a.x + a.width > b.x ∧
       a.y < b.y + b.height ∧ a.y + a.height > b.y)) ∧
    rectIntersect ⟨0, 0, 10, 10⟩ ⟨10, 0, 10, 10⟩ = false := by
  refine ⟨?_, ?_, ?_⟩
  · intro a b
    rw [Bool.eq_iff_iff]
    simp only [rectIntersect, Bool.and_eq_true, decide_eq_true_eq]
    constructor <;> rintro ⟨⟨⟨h1, h2⟩, h3⟩, h4⟩ <;>
      exact ⟨⟨⟨by linarith, by linarith⟩, by linarith⟩, by linarith⟩
  · intro a b
    simp only [rectIntersect, Bool.and_eq_true, decide_eq_true_eq, gt_iff_lt]
    tauto
  · norm_num [rectIntersect]

/-- Claim C5 (confirmed): in the physics phase executed by every running,
non-complete update step, the horizontal velocity is `-MOVE_SPEED` when
the left key is pressed, `MOVE_SPEED` when the right key is pressed and
the left key is not, and `0` otherwise; in particular, when both keys are
pressed, left wins.  The second conjunct records that a running,
non-complete `update` step is exactly the physics phase followed by the
hazard loop and the goal check, so this phase is the one that sets the
player's horizontal velocity. -/
theorem claim_C5 :
    (∀ (k : Keys) (p : Player),
      (physicsPlayer k p).vx =
        if k.left then -MOVE_SPEED else if k.right then MOVE_SPEED else 0) ∧
    (∀ (k : Keys) (p : Player), k.left = true → (physicsPlayer k p).vx = -MOVE_SPEED) ∧
    (∀ (k : Keys) (s : GameState), s.gameRunning = true → s.player.complete = false →
      update k s =
        { s with
          player := checkGoal (stepHazards (physicsPlayer k s.player) s.hazards).1,
          hazards := (stepHazards (physicsPlayer k s.player) s.hazards).2 }) := by
  have hvx : ∀ (k : Keys) (p : Player),
      (physicsPlayer k p).vx =
        if k.left then -MOVE_SPEED else if k.right then MOVE_SPEED else 0 := by
    intro k p
    unfold physicsPlayer
    dsimp only
    rw [apply_ite Player.vx]
    simp
  refine ⟨hvx, ?_, update_run⟩
  intro k p hl
  rw [hvx k p, hl]
  simp

/-- Witness for C5: with both left and right pressed the velocity is
`-MOVE_SPEED`, and a concrete running step decomposes as stated. -/
theorem claim_C5_w :
    (physicsPlayer ⟨true, true, false⟩ initialPlayer).vx = -MOVE_SPEED ∧
    update noKeys startedState =
      { startedState with
        player := checkGoal
          (stepHazards (physicsPlayer noKeys startedState.player) startedState.hazards).1,
        hazards :=
          (stepHazards (physicsPlayer noKeys startedState.player) startedState.hazards).2 } :=
  ⟨claim_C5.2.1 ⟨true, true, false⟩ initialPlayer rfl,
   claim_C5.2.2 noKeys startedState rfl rfl⟩

/-- Claim C8 (confirmed): calling `update` while the game is paused or the
player is complete leaves the entire simulation state (player position,
velocity, flags, and every hazard) unchanged, for every input state. -/
theorem claim_C8 (k : Keys) (s : GameState)
    (h : s.gameRunning = false ∨ s.player.complete = true) :
    update k s = s :=
  update_halt k s h

/-- Witness for C8: a concrete paused state is untouched by `update`. -/
theorem claim_C8_w :
    update rightKeys ⟨false, initialPlayer, initialHazards⟩ =
      ⟨false, initialPlayer, initialHazards⟩ :=
  claim_C8 rightKeys ⟨false, initialPlayer, initialHazards⟩ (Or.inl rfl)

/-- Claim C2 (confirmed): whenever a running, non-complete update step
finds the player's AABB intersecting some hazard's AABB (static or
moving, each hazard taken after its position update), the step leaves the
player reset to exactly (50, 500) with `vx = 0`, `vy = 0` and
`onGround = false`.  The player rectangle used by the source's check is
the one produced by the physics phase of the same step. -/
theorem claim_C2 (k : Keys) (s : GameState)
    (hrun : s.gameRunning = true) (hc : s.player.complete = false)
    (hhit : (s.hazards.map moveHazard).any
      (fun hz => rectIntersect (physicsPlayer k s.player).toRect hz.toRect) = true) :
    (update k s).player.x = 50 ∧ (update k s).player.y = 500 ∧
    (update k s).player.vx = 0 ∧ (update k s).player.vy = 0 ∧
    (update k s).player.onGround = false := by
  rw [update_run k s hrun hc]
  dsimp only
  rw [stepHazards_fst_hit s.hazards (physicsPlayer k s.player) hhit]
  obtain ⟨hx, hy, hvx, hvy, hog, -, -⟩ :=
    checkGoal_fields (resetPlayer (physicsPlayer k s.player))
  exact ⟨by rw [hx]; rfl, by rw [hy]; rfl, by rw [hvx]; rfl, by rw [hvy]; rfl,
    by rw [hog]; rfl⟩

/-- Witness for C2: a concrete running state whose player overlaps the
static hazard at (400, 520, 50, 50) is reset to spawn by one step. -/
theorem claim_C2_w :
    (update noKeys ⟨true, ⟨400, 500, 40, 60, 0, 0, false, false⟩, initialHazards⟩).player.x = 50 ∧
    (update noKeys ⟨true, ⟨400, 500, 40, 60, 0, 0, false, false⟩, initialHazards⟩).player.y = 500 ∧
    (update noKeys ⟨true, ⟨400, 500, 40, 60, 0, 0, false, false⟩, initialHazards⟩).player.vx = 0 ∧
    (update noKeys ⟨true, ⟨400, 500, 40, 60, 0, 0, false, false⟩, initialHazards⟩).player.vy = 0 ∧
    (update noKeys ⟨true, ⟨400, 500, 40, 60, 0, 0, false, false⟩, initialHazards⟩).player.onGround
       = false :=
  claim_C2 noKeys ⟨true, ⟨400, 500, 40, 60, 0, 0, false, false⟩, initialHazards⟩ rfl rfl
    (by norm_num [initialHazards, moveHazard, physicsPlayer, rectIntersect, jsLe, jsGe,
      Player.toRect, Hazard.toRect, noKeys, GRAVITY, MOVE_SPEED, JUMP_SPEED, GAME_WIDTH, ground])

/-- Claim C10 (confirmed): a single running step that resets the player on
a hazard hit cannot also set `complete`: with the actual player size
(40 × 60), after a reset the goal check is evaluated at the spawn
rectangle (50, 500, 40, 60), which does not intersect the goal rectangle
(740, 480, 40, 80), so `complete` stays `false`. -/
theorem claim_C10 (k : Keys) (s : GameState)
    (hrun : s.gameRunning = true) (hc : s.player.complete = false)
    (hw : s.player.width = 40) (hh : s.player.height = 60)
    (hhit : (s.hazards.map moveHazard).any
      (fun hz => rectIntersect (physicsPlayer k s.player).toRect hz.toRect) = true) :
    (update k s).player.complete = false := by
  rw [update_run k s hrun hc]
  dsimp only
  rw [stepHazards_fst_hit s.hazards (physicsPlayer k s.player) hhit]
  obtain ⟨hpw, hph, hpc⟩ := physicsPlayer_fields k s.player
  have hno : rectIntersect (resetPlayer (physicsPlayer k s.player)).toRect goal = false := by
    simp only [resetPlayer, Player.toRect, rectIntersect, goal, hpw, hph, hw, hh]
    norm_num
  rw [checkGoal_no_goal _ hno, resetPlayer_complete, hpc, hc]

/-- Witness for C10: in the concrete overlap scenario of C2, the step that
resets the player leaves `complete` false. -/
theorem claim_C10_w :
    (update noKeys ⟨true, ⟨400, 500, 40, 60, 0, 0, false, false⟩, initialHazards⟩).player.complete
      = false :=
  claim_C10 noKeys ⟨true, ⟨400, 500, 40, 60, 0, 0, false, false⟩, initialHazards⟩ rfl rfl rfl rfl
    (by norm_num [initialHazards, moveHazard, physicsPlayer, rectIntersect, jsLe, jsGe,
      Player.toRect, Hazard.toRect, noKeys, GRAVITY, MOVE_SPEED, JUMP_SPEED, GAME_WIDTH, ground])

/-- Claim C7 (confirmed): if a running, non-complete step finds the player
(after physics and the hazard loop, exactly where the source checks)
intersecting the goal rectangle, `complete` becomes true; and `complete`
is monotonic: once true, it stays true under any further sequence of
update steps with any inputs. -/
theorem claim_C7 :
    (∀ (k : Keys) (s : GameState), s.gameRunning = true → s.player.complete = false →
      rectIntersect ((stepHazards (physicsPlayer k s.player) s.hazards).1).toRect goal = true →
      (update k s).player.complete = true) ∧
    (∀ (inputs : List Keys) (s : GameState), s.player.complete = true →
      (runSteps inputs s).player.complete = true) := by
  constructor
  · intro k s hrun hc hg
    rw [update_run k s hrun hc]
    dsimp only
    simp [checkGoal, hg]
  · intro inputs
    induction inputs with
    | nil => intro s h; exact h
    | cons k rest ih =>
      intro s h
      have h1 : runSteps (k :: rest) s = runSteps rest (update k s) := rfl
      rw [h1, update_halt k s (Or.inr h)]
      exact ih s h

/-- Witness for C7: a player standing inside the goal column completes the
level in one concrete step, and a completed state stays completed. -/
theorem claim_C7_w :
    (update noKeys ⟨true, ⟨740, 490, 40, 60, 0, 0, false, false⟩, initialHazards⟩).player.complete
        = true ∧
    (runSteps [rightKeys]
        ⟨true, ⟨50, 500, 40, 60, 0, 0, false, true⟩, initialHazards⟩).player.complete = true :=
  ⟨claim_C7.1 noKeys ⟨true, ⟨740, 490, 40, 60, 0, 0, false, false⟩, initialHazards⟩ rfl rfl
      (by norm_num [initialHazards, stepHazards, moveHazard, physicsPlayer, rectIntersect,
        jsLe, jsGe, Player.toRect, Hazard.toRect, noKeys, GRAVITY, MOVE_SPEED, JUMP_SPEED,
        GAME_WIDTH, ground, goal, resetPlayer]),
   claim_C7.2 [rightKeys] ⟨true, ⟨50, 500, 40, 60, 0, 0, false, true⟩, initialHazards⟩ rfl⟩

theorem update_x_bounds (k : Keys) (s : GameState)
    (hw0 : 0 ≤ s.player.width) (hw : s.player.width ≤ 750)
    (hx0 : 0 ≤ s.player.x) (hx1 : s.player.x + s.player.width ≤ 800) :
    (update k s).player.width = s.player.width ∧
    0 ≤ (update k s).player.x ∧ (update k s).player.x + s.player.width ≤ 800 := by
  by_cases hrun : s.gameRunning = true
  · by_cases hc : s.player.complete = true
    · rw [update_halt k s (Or.inr hc)]
      exact ⟨rfl, hx0, hx1⟩
    · rw [update_run k s hrun (by simpa using hc)]
      dsimp only
      obtain ⟨hxg, -, -, -, -, hwg, -⟩ :=
        checkGoal_fields ((stepHazards (physicsPlayer k s.player) s.hazards).1)
      have hwp := (physicsPlayer_fields k s.player).1
      have hb := physicsPlayer_x_bounds k s.player hw0 hw
      rcases stepHazards_fst_cases s.hazards (physicsPlayer k s.player) with hcase | hcase
      · rw [hxg, hwg, hcase]
        exact ⟨hwp, hb.1, hb.2⟩
      · rw [hxg, hwg, hcase]
        refine ⟨by rw [resetPlayer_width, hwp], ?_, ?_⟩
        · rw [show (resetPlayer (physicsPlayer k s.player)).x = 50 from rfl]
          norm_num
        · rw [show (resetPlayer (physicsPlayer k s.player)).x = 50 from rfl]
          linarith
  · rw [update_halt k s (Or.inl (by simpa using hrun))]
    exact ⟨rfl, hx0, hx1⟩

/-- Claim C6 (confirmed): starting from any state whose player has the
in-range width (at most 750; the actual player is 40 wide) and an x within
[0, 800 - width], after any sequence of update steps with any inputs the
player's x still satisfies 0 ≤ x and x + width ≤ GAME_WIDTH = 800: no
sequence of steps moves the player horizontally outside the world. -/
theorem claim_C6 (inputs : List Keys) (s : GameState)
    (hw0 : 0 ≤ s.player.width) (hw : s.player.width ≤ 750)
    (hx0 : 0 ≤ s.player.x) (hx1 : s.player.x + s.player.width ≤ 800) :
    0 ≤ (runSteps inputs s).player.x ∧
    (runSteps inputs s).player.x + (runSteps inputs s).player.width ≤ 800 := by
  induction inputs generalizing s with
  | nil => exact ⟨hx0, hx1⟩
  | cons k rest ih =>
    have h1 : runSteps (k :: rest) s = runSteps rest (update k s) := rfl
    obtain ⟨hweq, hx0', hx1'⟩ := update_x_bounds k s hw0 hw hx0 hx1
    rw [h1]
    exact ih (update k s) (by rw [hweq]; exact hw0) (by rw [hweq]; exact hw)
      hx0' (by rw [hweq]; exact hx1')

/-- Witness for C6: two concrete steps from the started game keep the
player's x inside [0, 760]. -/
theorem claim_C6_w :
    0 ≤ (runSteps [rightKeys, rightKeys] startedState).player.x ∧
    (runSteps [rightKeys, rightKeys] startedState).player.x +
      (runSteps [rightKeys, rightKeys] startedState).player.width ≤ 800 :=
  claim_C6 [rightKeys, rightKeys] startedState (by norm_num [startedState, initialPlayer])
    (by norm_num [startedState, initialPlayer]) (by norm_num [startedState, initialPlayer])
    (by norm_num [startedState, initialPlayer])

/-- Claim C3 (confirmed): from the initial player (50, 500) with zero
velocity, holding only the right key on the level's flat ground at
y = 560 with player height 60, ten running update steps end with x = 90,
y = 500, `onGround = true`, and the ground collision zeroes `vy` on every
one of the ten ticks. -/
theorem claim_C3 :
    (runSteps (List.replicate 10 rightKeys) startedState).player.x = 90 ∧
    (runSteps (List.replicate 10 rightKeys) startedState).player.y = 500 ∧
    (runSteps (List.replicate 10 rightKeys) startedState).player.onGround = true ∧
    (runSteps (List.replicate 10 rightKeys) startedState).player.vy = 0 ∧
    ([1, 2, 3, 4, 5, 6, 7, 8, 9, 10].all fun n =>
      decide ((runSteps (List.replicate n rightKeys) startedState).player.vy = 0)) = true := by
  norm_num [runSteps, List.replicate, update, physicsPlayer, stepHazards, moveHazard,
    checkGoal, rectIntersect, resetPlayer, jsLe, jsGe, Player.toRect, Hazard.toRect,
    startedState, initialPlayer, initialHazards, rightKeys, GRAVITY, MOVE_SPEED,
    JUMP_SPEED, GAME_WIDTH, ground, goal]

theorem moveHazard_iter_fields (hz : Hazard) (k : ℕ) :
    (moveHazard^[k] hz).height = hz.height ∧
    (moveHazard^[k] hz).rangeTop = hz.rangeTop ∧
    (moveHazard^[k] hz).rangeBottom = hz.rangeBottom := by
  induction k with
  | zero => exact ⟨rfl, rfl, rfl⟩
  | succ n ih =>
    rw [Function.iterate_succ_apply']
    obtain ⟨-, -, h1, h2, h3⟩ := moveHazard_fields (moveHazard^[n] hz)
    exact ⟨h1.trans ih.1, h2.trans ih.2.1, h3.trans ih.2.2⟩

theorem hazInv_move (hz : Hazard) (h : hazInv hz) : hazInv (moveHazard hz) := by
  intro d' t b hdy' hrt' hrb'
  obtain ⟨-, -, hhgt, hrt0, hrb0⟩ := moveHazard_fields hz
  rw [hrt0] at hrt'
  rw [hrb0] at hrb'
  cases hdy : hz.dy with
  | none =>
    rw [moveHazard_none hz hdy] at hdy' ⊢
    exact h d' t b hdy' hrt' hrb'
  | some d =>
    by_cases hd0 : d = 0
    · subst hd0
      rw [moveHazard_zero hz hdy] at hdy' ⊢
      exact h d' t b hdy' hrt' hrb'
    · have hh := h d t b hdy hrt' hrb'
      have hmv := moveHazard_some hz d hdy hd0
      rw [hmv] at hdy' ⊢
      by_cases hflip :
          (jsLe (hz.y + d) hz.rangeTop || jsGe (hz.y + d + hz.height) hz.rangeBottom) = true
      · rw [if_pos hflip] at hdy' ⊢
        have hd' : d' = -d := by simpa using hdy'.symm
        subst hd'
        dsimp only
        rcases hh with ⟨h1, h2, h3⟩ | ⟨h1, h2, h3⟩
        · right
          refine ⟨by linarith, by linarith, by linarith⟩
        · left
          refine ⟨by linarith, by linarith, by linarith⟩
      · rw [if_neg hflip] at hdy' ⊢
        have hdy'' : hz.dy = some d' := by simpa using hdy'
        rw [hdy] at hdy''
        obtain rfl : d' = d := (Option.some.inj hdy'').symm
        rw [hrt', hrb'] at hflip
        simp only [jsLe, jsGe, Bool.or_eq_true, decide_eq_true_eq, not_or] at hflip
        obtain ⟨hnt, hnb⟩ := hflip
        dsimp only
        rcases hh with ⟨h1, h2, h3⟩ | ⟨h1, h2, h3⟩
        · left
          refine ⟨h1, by linarith, by linarith⟩
        · right
          refine ⟨h1, by linarith, by linarith⟩

theorem hazInv_iter (hz : Hazard) (k : ℕ) (h : hazInv hz) :
    hazInv (moveHazard^[k] hz) := by
  induction k with
  | zero => exact h
  | succ n ih =>
    rw [Function.iterate_succ_apply']
    exact hazInv_move (moveHazard^[n] hz) ih

theorem moveHazard_dy_mem (hz : Hazard) (d : ℚ)
    (h : hz.dy = some d ∨ hz.dy = some (-d)) :
    (moveHazard hz).dy = some d ∨ (moveHazard hz).dy = some (-d) := by
  rcases h with h | h
  · by_cases hd0 : d = 0
    · rw [moveHazard_zero hz (by rw [h, hd0])]
      exact Or.inl h
    · rw [moveHazard_some hz d h hd0]
      split_ifs
      · exact Or.inr rfl
      · exact Or.inl h
  · by_cases hd0 : -d = 0
    · rw [moveHazard_zero hz (by rw [h, hd0])]
      exact Or.inr h
    · rw [moveHazard_some hz (-d) h hd0]
      split_ifs
      · left; dsimp only; rw [neg_neg]
      · exact Or.inr h

theorem moveHazard_iter_dy (hz : Hazard) (d : ℚ) (k : ℕ) (h : hz.dy = some d) :
    (moveHazard^[k] hz).dy = some d ∨ (moveHazard^[k] hz).dy = some (-d) := by
  induction k with
  | zero => exact Or.inl h
  | succ n ih =>
    rw [Function.iterate_succ_apply']
    exact moveHazard_dy_mem (moveHazard^[n] hz) d ih

/-- Claim C9 (confirmed): an oscillating hazard started at `y = rangeTop`
with positive speed `d` (and a descriptor it fits in, `rangeTop + height ≤
rangeBottom`) moves by exactly `d` downward on every tick on which it is
moving down; on the tick on which its bottom edge reaches `rangeBottom`
the speed's sign flips, so the following tick moves it back up (returning
it to its previous `y`); and at every tick its position exceeds neither
bound by more than one step: `rangeTop - d ≤ y` and
`y + height ≤ rangeBottom + d`. -/
theorem claim_C9 (hz : Hazard) (d t b : ℚ)
    (hdy : hz.dy = some d) (hd : 0 < d)
    (ht : hz.rangeTop = some t) (hb : hz.rangeBottom = some b)
    (hy : hz.y = t) (hfit : t + hz.height ≤ b) (k : ℕ) :
    (t - d ≤ (moveHazard^[k] hz).y ∧ (moveHazard^[k] hz).y + hz.height ≤ b + d) ∧
    ((moveHazard^[k] hz).dy = some d ∨ (moveHazard^[k] hz).dy = some (-d)) ∧
    ((moveHazard^[k] hz).dy = some d →
      (moveHazard^[k + 1] hz).y = (moveHazard^[k] hz).y + d) ∧
    ((moveHazard^[k] hz).dy = some d → b ≤ (moveHazard^[k] hz).y + d + hz.height →
      (moveHazard^[k + 1] hz).dy = some (-d) ∧
      (moveHazard^[k + 2] hz).y = (moveHazard^[k] hz).y) := by
  obtain ⟨hih, hit, hib⟩ := moveHazard_iter_fields hz k
  have hinv0 : hazInv hz := by
    intro d' t' b' h1 h2 h3
    rw [hdy] at h1
    rw [ht] at h2
    rw [hb] at h3
    obtain rfl : d' = d := (Option.some.inj h1).symm
    obtain rfl : t' = t := (Option.some.inj h2).symm
    obtain rfl : b' = b := (Option.some.inj h3).symm
    left
    refine ⟨hd, by rw [hy]; linarith, by rw [hy]; linarith⟩
  have hinvk := hazInv_iter hz k hinv0
  have hdyk := moveHazard_iter_dy hz d k hdy
  have hne : d ≠ 0 := ne_of_gt hd
  have hbounds : t - d ≤ (moveHazard^[k] hz).y ∧ (moveHazard^[k] hz).y + hz.height ≤ b + d := by
    rcases hdyk with hk | hk
    · rcases hinvk d t b hk (by rw [hit, ht]) (by rw [hib, hb]) with
        ⟨-, h2, h3⟩ | ⟨h1, -, -⟩
      · rw [hih] at h3
        exact ⟨h2, by linarith⟩
      · linarith
    · rcases hinvk (-d) t b hk (by rw [hit, ht]) (by rw [hib, hb]) with
        ⟨h1, -, -⟩ | ⟨-, h2, h3⟩
      · linarith
      · rw [hih] at h3
        exact ⟨by linarith, by linarith⟩
  refine ⟨hbounds, hdyk, ?_, ?_⟩
  · intro hk
    rw [Function.iterate_succ_apply', moveHazard_some (moveHazard^[k] hz) d hk hne]
    split_ifs <;> rfl
  · intro hk hreach
    have hflip : (jsLe ((moveHazard^[k] hz).y + d) (moveHazard^[k] hz).rangeTop ||
        jsGe ((moveHazard^[k] hz).y + d + (moveHazard^[k] hz).height)
          (moveHazard^[k] hz).rangeBottom) = true := by
      rw [hit, ht, hib, hb, hih]
      simp only [jsLe, jsGe, Bool.or_eq_true, decide_eq_true_eq]
      exact Or.inr hreach
    have hstep1 : moveHazard^[k + 1] hz =
        { moveHazard^[k] hz with y := (moveHazard^[k] hz).y + d, dy := some (-d) } := by
      rw [Function.iterate_succ_apply', moveHazard_some (moveHazard^[k] hz) d hk hne,
        if_pos hflip]
    refine ⟨by rw [hstep1], ?_⟩
    have hne' : -d ≠ 0 := by simpa using hne
    have hdy1 : (moveHazard^[k + 1] hz).dy = some (-d) := by rw [hstep1]
    rw [show k + 2 = (k + 1) + 1 from rfl, Function.iterate_succ_apply',
      moveHazard_some (moveHazard^[k + 1] hz) (-d) hdy1 hne']
    split_ifs <;> · dsimp only; rw [hstep1]; dsimp only; ring

/-- Witness for C9: the level's moving hazard placed at its `rangeTop`
(550, 480, 50, 50) with speed 1.2; at tick 0 all four conclusions hold
concretely. -/
theorem claim_C9_w :
    ((480 : ℚ) - 6/5 ≤ (moveHazard^[0] (⟨550, 480, 50, 50, some (6/5), some 480,
        some 540⟩ : Hazard)).y ∧
      (moveHazard^[0] (⟨550, 480, 50, 50, some (6/5), some 480, some 540⟩ : Hazard)).y +
        (⟨550, 480, 50, 50, some (6/5), some 480, some 540⟩ : Hazard).height ≤ 540 + 6/5) ∧
    ((moveHazard^[0] (⟨550, 480, 50, 50, some (6/5), some 480, some 540⟩ : Hazard)).dy =
        some (6/5) ∨
      (moveHazard^[0] (⟨550, 480, 50, 50, some (6/5), some 480, some 540⟩ : Hazard)).dy =
        some (-(6/5))) ∧
    ((moveHazard^[0] (⟨550, 480, 50, 50, some (6/5), some 480, some 540⟩ : Hazard)).dy =
        some (6/5) →
      (moveHazard^[0 + 1] (⟨550, 480, 50, 50, some (6/5), some 480, some 540⟩ : Hazard)).y =
        (moveHazard^[0] (⟨550, 480, 50, 50, some (6/5), some 480, some 540⟩ : Hazard)).y +
          6/5) ∧
    ((moveHazard^[0] (⟨550, 480, 50, 50, some (6/5), some 480, some 540⟩ : Hazard)).dy =
        some (6/5) →
      (540 : ℚ) ≤ (moveHazard^[0] (⟨550, 480, 50, 50, some (6/5), some 480,
          some 540⟩ : Hazard)).y + 6/5 +
        (⟨550, 480, 50, 50, some (6/5), some 480, some 540⟩ : Hazard).height →
      (moveHazard^[0 + 1] (⟨550, 480, 50, 50, some (6/5), some 480,
          some 540⟩ : Hazard)).dy = some (-(6/5)) ∧
      (moveHazard^[0 + 2] (⟨550, 480, 50, 50, some (6/5), some 480,
          some 540⟩ : Hazard)).y =
        (moveHazard^[0] (⟨550, 480, 50, 50, some (6/5), some 480, some 540⟩ : Hazard)).y) :=
  claim_C9 ⟨550, 480, 50, 50, some (6/5), some 480, some 540⟩ (6/5) 480 540 rfl
    (by norm_num) rfl rfl rfl (by norm_num) 0

/-- Counterexample to C1 as stated: one update step from the initial
level data moves the oscillating hazard (which starts at y = 510, bottom
edge 560, already past rangeBottom = 540) to y = 511.2 = 2556/5, where
its bottom edge 561.2 exceeds rangeBottom, refuting
`y + height ≤ rangeBottom`. -/
theorem claim_C1_cex :
    (update noKeys startedState).hazards =
      [⟨400, 520, 50, 50, none, none, none⟩,
       ⟨550, 2556/5, 50, 50, some (-(6/5)), some 480, some 540⟩] ∧
    ¬((2556/5 : ℚ) + 50 ≤ 540) := by
  constructor
  · norm_num [update, physicsPlayer, stepHazards, moveHazard, checkGoal, rectIntersect,
      resetPlayer, jsLe, jsGe, Player.toRect, Hazard.toRect, startedState, initialPlayer,
      initialHazards, noKeys, GRAVITY, MOVE_SPEED, JUMP_SPEED, GAME_WIDTH, ground, goal]
  · norm_num

/-- Claim C1 (corrected): the strict range invariant fails (see
`claim_C1_cex`); what the hazard update preserves is the inward-pointing
invariant `hazInv`, under which every oscillating hazard stays within the
range widened by one step on each side: `rangeTop - |dy| ≤ y` and
`y + height ≤ rangeBottom + |dy|` after every update step, running or
not.  The moving hazard of the initial level data starts outside even the
widened band and only satisfies it after descending into range. -/
theorem claim_C1_inv (k : Keys) (s : GameState)
    (h : ∀ hz ∈ s.hazards, hazInv hz) :
    (∀ hz ∈ (update k s).hazards, hazInv hz) ∧
    (∀ hz ∈ (update k s).hazards, ∀ d t b : ℚ, hz.dy = some d → hz.rangeTop = some t →
      hz.rangeBottom = some b → t - |d| ≤ hz.y ∧ hz.y + hz.height ≤ b + |d|) := by
  have hpres : ∀ hz ∈ (update k s).hazards, hazInv hz := by
    by_cases hrun : s.gameRunning = true
    · by_cases hc : s.player.complete = true
      · rw [update_halt k s (Or.inr hc)]
        exact h
      · rw [update_run k s hrun (by simpa using hc)]
        dsimp only
        rw [stepHazards_snd]
        intro hz' hmem
        rw [List.mem_map] at hmem
        obtain ⟨hz, hmem, rfl⟩ := hmem
        exact hazInv_move hz (h hz hmem)
    · rw [update_halt k s (Or.inl (by simpa using hrun))]
      exact h
  refine ⟨hpres, ?_⟩
  intro hz hmem d t b h1 h2 h3
  rcases hpres hz hmem d t b h1 h2 h3 with ⟨hd, ha, hb2⟩ | ⟨hd, ha, hb2⟩
  · rw [abs_of_pos hd]
    exact ⟨ha, by linarith⟩
  · rw [abs_of_neg hd]
    exact ⟨by linarith, by linarith⟩

/-- Witness for the corrected C1: a running step on a hazard satisfying
`hazInv` at (550, 490) moves it to y = 491.2 = 2456/5 with flipped speed,
and the widened bounds hold there by `claim_C1_inv`. -/
theorem claim_C1_w :
    (update noKeys ⟨true, initialPlayer,
        [⟨550, 490, 50, 50, some (6/5), some 480, some 540⟩]⟩).hazards =
      [⟨550, 2456/5, 50, 50, some (-(6/5)), some 480, some 540⟩] ∧
    (480 : ℚ) - |(-(6/5) : ℚ)| ≤ 2456/5 ∧ (2456/5 : ℚ) + 50 ≤ 540 + |(-(6/5) : ℚ)| := by
  have hlist : (update noKeys ⟨true, initialPlayer,
      [⟨550, 490, 50, 50, some (6/5), some 480, some 540⟩]⟩).hazards =
      [⟨550, 2456/5, 50, 50, some (-(6/5)), some 480, some 540⟩] := by
    norm_num [update, physicsPlayer, stepHazards, moveHazard, checkGoal, rectIntersect,
      resetPlayer, jsLe, jsGe, Player.toRect, Hazard.toRect, initialPlayer, noKeys,
      GRAVITY, MOVE_SPEED, JUMP_SPEED, GAME_WIDTH, ground, goal]
  have hinv : ∀ hz ∈ [(⟨550, 490, 50, 50, some (6/5), some 480, some 540⟩ : Hazard)],
      hazInv hz := by
    intro hz hmem
    rw [List.mem_singleton] at hmem
    subst hmem
    intro d t b h1 h2 h3
    obtain rfl : d = 6/5 := by simpa using h1.symm
    obtain rfl : t = 480 := by simpa using h2.symm
    obtain rfl : b = 540 := by simpa using h3.symm
    left
    norm_num
  have hcons := (claim_C1_inv noKeys
    ⟨true, initialPlayer, [⟨550, 490, 50, 50, some (6/5), some 480, some 540⟩]⟩ hinv).2
  have hmem : (⟨550, 2456/5, 50, 50, some (-(6/5)), some 480, some 540⟩ : Hazard) ∈
      (update noKeys ⟨true, initialPlayer,
        [⟨550, 490, 50, 50, some (6/5), some 480, some 540⟩]⟩).hazards := by
    rw [hlist]
    exact List.mem_singleton.mpr rfl
  have hres := hcons _ hmem (-(6/5)) 480 540 rfl rfl rfl
  exact ⟨hlist, by simpa using hres.1, by simpa using hres.2⟩

end FindingGnosis
